import Mathlib

/-!
Verification of the change-detection and notification engine of the
ebay-seller-sold-bot repository.

The development shallowly embeds the relevant JavaScript source:
* the diff step and the per-seller body of `monitorSellers` (server entry file),
* the bounded crawl retry `retryOperation` and the sold-items pagination loop
  of `getSellerSoldItemsInternal` (`utils/scraper.js`),
* the webhook dispatch loop `sendWithRateLimit` (`utils/webhooks.js`),
* the scheduler state touched by `triggerMonitoringRestart`.

Machine integers are modelled as `Nat`/`Int`; JavaScript timestamps are
milliseconds.  Fallible operations return `Option`/`Except`.  External
collaborators (page fetcher, item extractor internals, the HTTP client)
enter as explicit parameters, so every definition is executable.
-/

set_option autoImplicit false

namespace EbayBot

/-! ## Diff engine and orchestrator (server entry file, `monitorSellers`) -/

/-- A crawled listing as seen by the diff step; only `itemId` is used for
identity (`listing.itemId` in the source). -/
structure Listing where
  itemId : String
deriving Repr, DecidableEq

/-- The fields of a tracked-seller record that the listings branch of
`monitorSellers` reads: `ssn`, `knownListings`, `lastCheckedListings`. -/
structure Seller where
  ssn : String
  knownListings : List String
  lastCheckedListings : Option Nat
deriving Repr, DecidableEq

/-- Result of `scraper.getSellerListings` for one seller: either the crawled
listings, or the error thrown after all retry attempts failed (caught by the
per-seller `try`/`catch` in `monitorSellers`). -/
inductive CrawlOutcome where
  | ok (listings : List Listing)
  | failed (msg : String)
deriving Repr, DecidableEq

/-- The argument object passed to `sellerManager.updateSeller` when
`monitorSellers` persists a seller after finding new listings. -/
structure PersistUpdate where
  ssn : String
  knownListings : List String
  lastCheckedListings : Nat
deriving Repr, DecidableEq

/-- Observable outcome of processing one seller in a cycle: the webhook sends
that happened (item id, returned success flag, in order) and the update
persisted to the store, if any. -/
structure SellerOutcome where
  sent : List (String × Bool)
  persisted : Option PersistUpdate
deriving Repr, DecidableEq

/-- The diff step of `monitorSellers` (source:
`listings.filter((listing) => !knownListingIds.has(listing.itemId))` where
`knownListingIds = new Set(seller.knownListings || [])`). -/
def newListingsOf (known : List String) (listings : List Listing) : List Listing :=
  listings.filter (fun l => !(known.contains l.itemId))

/-- The known-set update of `monitorSellers` (source:
`[...(seller.knownListings || []), ...newListings.map((l) => l.itemId)]`). -/
def updatedKnownOf (known : List String) (newL : List Listing) : List String :=
  known ++ newL.map (fun l => l.itemId)

/-- Modelled from the spec (Diff Engine contract, §4.2): `newItems` = items
whose `itemId` is not a member of `knownItemIds`, in the same order the
Crawler produced them.  Used only to be compared with `newListingsOf`. -/
def specNewItems (known : List String) (items : List Listing) : List Listing :=
  items.filter (fun l => decide (l.itemId ∉ known))

/-- One iteration of the listings-seller loop of `monitorSellers`
(lines around 372-424 of the server entry file): crawl outcome in hand,
filter against the known set; if any new listing exists, send one webhook per
new listing (the returned `success` flag is bound but never consulted) and
persist the extended known list together with `lastCheckedListings = now`;
if the crawl threw, the `catch` only logs and the seller is skipped. -/
def processListingSeller (s : Seller) (crawl : CrawlOutcome)
    (send : Listing → Bool) (now : Nat) : SellerOutcome :=
  match crawl with
  | .failed _ => { sent := [], persisted := none }
  | .ok listings =>
    let newL := newListingsOf s.knownListings listings
    if newL = [] then
      { sent := [], persisted := none }
    else
      { sent := newL.map (fun l => (l.itemId, send l)),
        persisted := some
          { ssn := s.ssn,
            knownListings := updatedKnownOf s.knownListings newL,
            lastCheckedListings := now } }

/-! ## Crawl retry (`retryOperation` in `utils/scraper.js`) -/

/-- Outcome of a single crawl attempt (the thunk passed to `retryOperation`
either resolves or throws). -/
inductive Attempt (α : Type) where
  | ok (val : α)
  | err (msg : String)
deriving Repr, DecidableEq

/-- Trace of a `retryOperation` run: the final result, how many times the
wrapped function was invoked, and the delays slept between attempts. -/
structure RetryTrace (α : Type) where
  result : Except String α
  calls : Nat
  delays : List Nat
deriving Repr

/-- The `for (attempt = 1; attempt <= maxRetries; attempt++)` loop of
`retryOperation`, indexed by the number of attempts still allowed
(`remaining = maxRetries - attempt + 1`); `fn` is the wrapped crawl keyed by
attempt number.  When the last allowed attempt throws, the error is
rethrown; otherwise the loop sleeps `delayMs` and retries.  (With
`remaining = 0` the JavaScript loop body never runs and the function
resolves with `undefined`; the wrapper below always starts with
`remaining = maxRetries > 0`.) -/
def retryGo {α : Type} (fn : Nat → Attempt α) (delayMs : Nat) :
    Nat → Nat → RetryTrace α
  | _, 0 => { result := .error "no attempts", calls := 0, delays := [] }
  | attempt, r + 1 =>
    match fn attempt with
    | .ok v => { result := .ok v, calls := 1, delays := [] }
    | .err e =>
      if r = 0 then
        { result := .error e, calls := 1, delays := [] }
      else
        let t := retryGo fn delayMs (attempt + 1) r
        { result := t.result, calls := t.calls + 1, delays := delayMs :: t.delays }

/-- `retryOperation(fn, maxRetries = 3, delayMs = 5000)`. -/
def retryOperation {α : Type} (fn : Nat → Attempt α) (maxRetries delayMs : Nat) :
    RetryTrace α :=
  retryGo fn delayMs 1 maxRetries

/-- `getSellerListings` = `retryOperation(() => getSellerListingsInternal(...))`
with the default `maxRetries = 3`, `delayMs = 5000`; `attempts` gives the
outcome of each numbered attempt for each seller handle. -/
def crawlSeller (attempts : String → Nat → Attempt (List Listing)) (s : Seller) :
    RetryTrace (List Listing) :=
  retryOperation (attempts s.ssn) 3 5000

/-- Bridge from the retry result to the per-seller `try`/`catch`. -/
def toCrawlOutcome (r : Except String (List Listing)) : CrawlOutcome :=
  match r with
  | .ok l => .ok l
  | .error e => .failed e

/-- The listings-seller loop of `monitorSellers`: each seller is processed in
order, each inside its own `try`/`catch`, so one seller's failure never
stops the loop. -/
def runListingsCycle (sellers : List Seller)
    (attempts : String → Nat → Attempt (List Listing))
    (send : Listing → Bool) (now : Nat) : List SellerOutcome :=
  sellers.map (fun s =>
    processListingSeller s (toCrawlOutcome (crawlSeller attempts s).result) send now)

/-! ## Sold-items crawl (`getSellerSoldItemsInternal` in `utils/scraper.js`) -/

/-- `String.includes` of JavaScript: `containsSub s pat` is true when `pat`
occurs contiguously in `s`. -/
def containsSubAux (pat : List Char) : List Char → Bool
  | [] => pat.isPrefixOf ([] : List Char)
  | c :: t => pat.isPrefixOf (c :: t) || containsSubAux pat t

/-- `s.includes(pat)`. -/
def containsSub (s pat : String) : Bool :=
  containsSubAux pat.toList s.toList

/-- A raw result card on a sold-items page, as handed to the extraction code
by cheerio: the extracted title (after the selector fallback cascade), the
`href` of the item link if present, price text, optional image URL, the text
of the sold-date element, and the full text of the card
(`$item.text()`). -/
structure RawCard where
  title : String
  link : Option String
  price : String
  imageUrl : Option String
  soldDateText : String
  cardText : String
deriving Repr, DecidableEq

/-- An entry of `pageItems` / `soldItems` in the source. -/
structure SoldItem where
  itemId : String
  title : String
  link : String
  price : String
  sellerUsername : String
  storeName : String
  imageUrl : Option String
  soldDate : String
deriving Repr, DecidableEq

/-- Relative links are made absolute:
`if (link && !link.startsWith("http")) link = "https://www.ebay.com" + link`. -/
def ebayAbs (link : String) : String :=
  if link.startsWith "http" then link else "https://www.ebay.com" ++ link

/-- The collection phase for one card (the `$(".s-item, .s-card").each`
callback, lines 326-412 of `utils/scraper.js`): a card is skipped when its
sold-date text is empty or lacks the word "Sold"; otherwise the link is made
absolute, an item id is extracted from it (`extractItemId`, passed here as
the parameter `extractId`), and the card is kept only when title, link and
item id are all present and the card text mentions "sold" or "ended"
case-insensitively. -/
def collectCard (extractId : String → Option String) (ssn store : String)
    (c : RawCard) : Option SoldItem :=
  if c.soldDateText = "" || !(containsSub c.soldDateText "Sold") then none
  else
    match c.link with
    | none => none
    | some rawLink =>
      let link := ebayAbs rawLink
      match extractId link with
      | none => none
      | some id =>
        if c.title ≠ "" ∧
            (containsSub c.cardText.toLower "sold" || containsSub c.cardText.toLower "ended") then
          some { itemId := id, title := c.title, link := link, price := c.price,
                 sellerUsername := ssn, storeName := store,
                 imageUrl := c.imageUrl, soldDate := c.soldDateText }
        else none

/-- `pageItems`: every card of the current page that survives collection, in
page order. -/
def collectPage (extractId : String → Option String) (ssn store : String)
    (cards : List RawCard) : List SoldItem :=
  cards.filterMap (collectCard extractId ssn store)

/-- Outcome of evaluating
`soldDate.match(/Sold\s+([A-Za-z]+\s+\d+,\s+\d{4})/)` followed by
`new Date(match[1])`: the pattern may not match at all; it may match but
yield an invalid `Date` (e.g. `new Date("Abc 99, 2025")`), whose time value
is `NaN`; or it may yield a valid absolute timestamp (milliseconds). -/
inductive DateParse where
  | noMatch
  | invalid
  | valid (t : Int)
deriving Repr, DecidableEq

/-- Two days in milliseconds: `2 * (1000 * 60 * 60 * 24)`. -/
def twoDaysMs : Int := 172800000

/-- The in-window classification (lines 419-442 of `utils/scraper.js`):
`soldWithinTwoDays` starts `false`; when the sold-date text mentions "Sold",
the date pattern is matched — no match means the item is included anyway
(`soldWithinTwoDays = true`, per the source comments); a valid date is
compared as `diffDays <= 2`, here scaled to milliseconds; a match whose
`Date` is invalid makes `diffTime` and `diffDays` `NaN`, and `NaN <= 2`
evaluates to `false`, so the item is classified out-of-window. -/
def soldWithinTwoDays (parseDate : String → DateParse) (now : Int)
    (soldDate : String) : Bool :=
  if containsSub soldDate "Sold" then
    match parseDate soldDate with
    | .noMatch => true
    | .invalid => false
    | .valid t => decide (now - t ≤ twoDaysMs)
  else false

/-- `item.link.split("?")[0]` applied when an in-window item is pushed onto
`soldItems`. -/
def cleanItem (it : SoldItem) : SoldItem :=
  { it with link := (it.link.splitOn "?").headD it.link }

/-- The classification loop over `pageItems` (lines 414-471): each in-window
item is pushed (with its link cleaned); `lastItemInRange` records whether
the final item of the page, in original page order, was in-window, and is
`false` for an empty page. -/
def processPage (parseDate : String → DateParse) (now : Int) :
    List SoldItem → List SoldItem × Bool
  | [] => ([], false)
  | it :: rest =>
    let w := soldWithinTwoDays parseDate now it.soldDate
    match rest with
    | [] => if w then ([cleanItem it], true) else ([], false)
    | r :: rs =>
      let t := processPage parseDate now (r :: rs)
      if w then (cleanItem it :: t.1, t.2) else (t.1, t.2)

/-- What the next-page interaction after a processed page yields: a next
page of cards (the button was visible and the click loaded it), no visible
button (`hasMorePages = false`), or a thrown error from the locator/click
(also `hasMorePages = false`). -/
inductive NextOutcome where
  | available (cards : List RawCard)
  | absent
  | failed (msg : String)
deriving Repr, DecidableEq

/-- The pagination loop (`while (hasMorePages && shouldContinuePagination)`,
lines 321-507): the current page is collected and classified; when
`lastItemInRange` is `false` pagination stops; otherwise the next-page
control is consulted — only an `available` outcome continues the loop, and
`absent`/`failed` end it with the partial result returned as the complete
result.  Returns the accumulated sold items and how many further pages were
fetched. -/
def crawlSoldGo (extractId : String → Option String)
    (parseDate : String → DateParse) (now : Int) (ssn store : String) :
    List RawCard → List NextOutcome → List SoldItem × Nat
  | cur, nexts =>
    let p := processPage parseDate now (collectPage extractId ssn store cur)
    if p.2 then
      match nexts with
      | NextOutcome.available cards :: rest =>
        let m := crawlSoldGo extractId parseDate now ssn store cards rest
        (p.1 ++ m.1, m.2 + 1)
      | _ => (p.1, 0)
    else (p.1, 0)

/-- `getSellerSoldItemsInternal`: page 1 plus the stream of next-page
outcomes. -/
def getSellerSoldItemsModel (extractId : String → Option String)
    (parseDate : String → DateParse) (now : Int) (ssn store : String)
    (firstPage : List RawCard) (nexts : List NextOutcome) : List SoldItem :=
  (crawlSoldGo extractId parseDate now ssn store firstPage nexts).1

/-! ## Webhook dispatch (`sendWithRateLimit` in `utils/webhooks.js`) -/

/-- A JavaScript value carried by a retry directive: either a JSON number
(`error.response.data?.retry_after`) or a numeric header string
(`error.response.headers["retry-after"]`); `str n` stands for the decimal
string rendering of `n`, on which JavaScript's `*` operator performs
numeric coercion. -/
inductive JsVal where
  | num (n : Nat)
  | str (n : Nat)
deriving Repr, DecidableEq

/-- JavaScript truthiness of a directive value: the number `0` is falsy; a
(nonempty) numeric string is truthy. -/
def jsTruthy : JsVal → Bool
  | .num n => decide (n ≠ 0)
  | .str _ => true

/-- JavaScript `a || b`. -/
def jsOr (a b : Option JsVal) : Option JsVal :=
  match a with
  | some v => if jsTruthy v then some v else b
  | none => b

/-- An HTTP error response as read by the `catch` block: status code,
`headers["retry-after"]` and `data?.retry_after`. -/
structure ErrResp where
  status : Nat
  retryHeader : Option JsVal
  retryBody : Option JsVal
deriving Repr, DecidableEq

/-- Outcome of one `sendFunction()` call: resolves, or rejects with an
error that may carry an HTTP response (`none` = network-level failure with
no response). -/
inductive SendOutcome where
  | success
  | error (resp : Option ErrResp)
deriving Repr, DecidableEq

/-- `Math.min(30000, Math.pow(2, attempt) * 1000)`. -/
def backoff30 (attempt : Nat) : Nat := min 30000 (2 ^ attempt * 1000)

/-- `Math.min(10000, Math.pow(2, attempt) * 1000)`. -/
def backoff10 (attempt : Nat) : Nat := min 10000 (2 ^ attempt * 1000)

/-- The wait derived from a 429 response (lines 48-63 of
`utils/webhooks.js`): when the directive is truthy, it is taken verbatim
only if `typeof retryAfter === "number" && retryAfter > 1000`, otherwise
`retryAfter * 1000` (a header string is coerced by `*`, so it is always
multiplied); a falsy or absent directive falls back to the capped
exponential backoff. -/
def waitTimeFor (ra : Option JsVal) (attempt : Nat) : Nat :=
  match ra with
  | some v =>
    if jsTruthy v then
      match v with
      | .num n => if 1000 < n then n else n * 1000
      | .str n => n * 1000
    else backoff30 attempt
  | none => backoff30 attempt

/-- `rateLimitState.get(url)` over the map modelled as an association
list. -/
def rlLookup (m : List (String × Nat)) (k : String) : Option Nat :=
  match m with
  | [] => none
  | (k', v) :: t => if k' = k then some v else rlLookup t k

/-- `rateLimitState.set(url, { resetAt })`. -/
def rlSet (m : List (String × Nat)) (k : String) (v : Nat) : List (String × Nat) :=
  match m with
  | [] => [(k, v)]
  | (k', v') :: t => if k' = k then (k, v) :: t else (k', v') :: rlSet t k v

/-- `rateLimitState.delete(url)` (guarded by `has`, which only makes the
unguarded delete a no-op difference). -/
def rlErase (m : List (String × Nat)) (k : String) : List (String × Nat) :=
  match m with
  | [] => []
  | (k', v) :: t => if k' = k then rlErase t k else (k', v) :: rlErase t k

/-- Dispatcher state visible to `sendWithRateLimit`: the per-destination
`rateLimitState` map, the current clock (`Date.now()`, milliseconds), plus
observation logs — every `sleep` duration in order, every
`rateLimitState.set` event, and the number of `sendFunction()` calls
made. -/
structure DispatchSt where
  rl : List (String × Nat)
  now : Nat
  sleeps : List Nat
  resets : List (String × Nat)
  calls : Nat
deriving Repr, DecidableEq

/-- `await sleep(d)`: the clock advances and the sleep is logged. -/
def recordSleep (d : Nat) (st : DispatchSt) : DispatchSt :=
  { st with now := st.now + d, sleeps := st.sleeps ++ [d] }

/-- The pre-send check (lines 26-35): if a `resetAt` is recorded for this
destination and lies in the future, sleep until it elapses. -/
def preWait (url : String) (st : DispatchSt) : DispatchSt :=
  match rlLookup st.rl url with
  | some resetAt => if st.now < resetAt then recordSleep (resetAt - st.now) st else st
  | none => st

/-- The `for (attempt = 0; attempt < maxRetries; attempt++)` loop of
`sendWithRateLimit`, indexed by the attempt number and the remaining fuel
(`maxRetries - attempt`).  Per iteration: pre-send rate-limit wait, one
`sendFunction()` call; on success the destination's rate-limit state is
cleared and `true` returned; on a 429 the wait is derived from the retry
directive, `resetAt = Date.now() + waitTime` is recorded for this
destination, and the loop sleeps and retries while attempts remain; on a
5xx response the loop sleeps the capped backoff and retries while attempts
remain; any other error returns `false` immediately.  Falling out of the
loop returns `false`. -/
def sendGo (url : String) (script : Nat → SendOutcome) (maxRetries : Nat) :
    Nat → Nat → DispatchSt → Bool × DispatchSt
  | _, 0, st => (false, st)
  | attempt, fuel + 1, st =>
    let st1 := preWait url st
    let st2 := { st1 with calls := st1.calls + 1 }
    match script attempt with
    | .success => (true, { st2 with rl := rlErase st2.rl url })
    | .error none => (false, st2)
    | .error (some r) =>
      if r.status = 429 then
        let w := waitTimeFor (jsOr r.retryHeader r.retryBody) attempt
        let st3 := { st2 with
          rl := rlSet st2.rl url (st2.now + w),
          resets := st2.resets ++ [(url, st2.now + w)] }
        if attempt < maxRetries - 1 then
          sendGo url script maxRetries (attempt + 1) fuel (recordSleep w st3)
        else (false, st3)
      else if attempt < maxRetries - 1 ∧ 500 ≤ r.status then
        sendGo url script maxRetries (attempt + 1) fuel (recordSleep (backoff10 attempt) st2)
      else (false, st2)

/-- `sendWithRateLimit(webhookUrl, sendFunction, maxRetries = 5)`; `script`
gives each numbered attempt's outcome. -/
def sendWithRateLimit (url : String) (script : Nat → SendOutcome)
    (maxRetries : Nat) (st : DispatchSt) : Bool × DispatchSt :=
  sendGo url script maxRetries 0 maxRetries st

/-! ## Scheduler (`triggerMonitoringRestart`, `monitorSellers` entry guard) -/

/-- The scheduler-visible state: the module-level `monitoringActive` flag,
and the progress of two `monitorSellers` invocations — the one started by
the periodic interval and the one scheduled by
`triggerMonitoringRestart`'s 2-second `setTimeout`.  Progress `0` means
not started, `1` means started and suspended at one of the body's `await`
points, `2` means finished. -/
structure SchedState where
  active : Bool
  periodicRun : Nat
  triggeredRun : Nat
deriving Repr, DecidableEq

/-- Process start: `monitoringActive = true` (and nothing in the source ever
assigns it again); no invocation has begun. -/
def schedInit : SchedState := { active := true, periodicRun := 0, triggeredRun := 0 }

/-- Event-loop steps.  An invocation of `monitorSellers` may start whenever
its entry guard `if (!monitoringActive) return` passes — the guard reads
nothing else, in particular not whether the other invocation is mid-cycle —
and a started invocation may later finish.  Each `await` inside the body
returns control to the event loop, which is what lets the other timer
callback run in between. -/
inductive SchedStep : SchedState → SchedState → Prop where
  | startPeriodic (s : SchedState) : s.active = true → s.periodicRun = 0 →
      SchedStep s { s with periodicRun := 1 }
  | finishPeriodic (s : SchedState) : s.periodicRun = 1 →
      SchedStep s { s with periodicRun := 2 }
  | startTriggered (s : SchedState) : s.active = true → s.triggeredRun = 0 →
      SchedStep s { s with triggeredRun := 1 }
  | finishTriggered (s : SchedState) : s.triggeredRun = 1 →
      SchedStep s { s with triggeredRun := 2 }

/-- States the event loop can reach from process start. -/
inductive SchedReachable : SchedState → Prop where
  | init : SchedReachable schedInit
  | step {s s' : SchedState} : SchedReachable s → SchedStep s s' → SchedReachable s'

/-- Two monitoring cycles are executing concurrently: both invocations have
started and neither has finished. -/
def Overlap (s : SchedState) : Prop := s.periodicRun = 1 ∧ s.triggeredRun = 1

/-! ## Theorems -/

/-- Helper: `Set`-membership in the source is list membership of the backing
array. -/
lemma newListingsOf_eq_spec (known : List String) (items : List Listing) :
    newListingsOf known items = specNewItems known items := by
  unfold newListingsOf specNewItems
  apply List.filter_congr
  intro l _
  simp [List.contains]

/-- Helper: membership in the updated known list. -/
lemma mem_updatedKnownOf (known : List String) (newL : List Listing) (x : String) :
    x ∈ updatedKnownOf known newL ↔ x ∈ known ∨ x ∈ newL.map (fun l => l.itemId) := by
  unfold updatedKnownOf
  exact List.mem_append

/-- C1: the diff step returns exactly the crawled items whose `itemId` is not
in the known set, in crawl order (it coincides with the spec's filter), and
the updated known list contains exactly the old ids and the new items' ids —
in particular no id of the known set is ever removed. -/
theorem claim_C1_diff_correct (K : List String) (items : List Listing) :
    newListingsOf K items = specNewItems K items ∧
    (∀ x : String, x ∈ updatedKnownOf K (newListingsOf K items) ↔
      x ∈ K ∨ x ∈ (newListingsOf K items).map (fun l => l.itemId)) ∧
    (∀ x ∈ K, x ∈ updatedKnownOf K (newListingsOf K items)) := by
  refine ⟨newListingsOf_eq_spec K items, fun x => mem_updatedKnownOf K _ x, ?_⟩
  intro x hx
  exact (mem_updatedKnownOf K _ x).mpr (Or.inl hx)

/-- Witness for C1 at a concrete input. -/
theorem claim_C1_diff_correct_witness :
    "111" ∈ updatedKnownOf ["111"] (newListingsOf ["111"] [⟨"222"⟩]) :=
  (claim_C1_diff_correct ["111"] [⟨"222"⟩]).2.2 "111" (by decide)

/-- C2 counterexample: seller with known ids `["111"]`, crawl returns item
`"222"`, the webhook send for `"222"` returns `false` — yet `"222"` is added
to the persisted known list (the source never consults the bound `success`
flag), so the item will never be retried, contradicting the claim. -/
theorem claim_C2_counterexample :
    (processListingSeller ⟨"s1", ["111"], none⟩ (.ok [⟨"222"⟩])
        (fun _ => false) 100).sent = [("222", false)] ∧
    (processListingSeller ⟨"s1", ["111"], none⟩ (.ok [⟨"222"⟩])
        (fun _ => false) 100).persisted = some ⟨"s1", ["111", "222"], 100⟩ := by
  constructor <;> rfl

/-- C2 amended: the persisted update is entirely independent of the
notification outcomes — every new item's id is recorded whether its send
succeeded or failed, so a failed notification is never surfaced again
(at-most-once delivery per item, not at-least-once). -/
theorem claim_C2_notify_failure_recorded (s : Seller) (items : List Listing)
    (send send' : Listing → Bool) (now : Nat) :
    (processListingSeller s (.ok items) send now).persisted
      = (processListingSeller s (.ok items) send' now).persisted ∧
    (∀ l ∈ newListingsOf s.knownListings items,
      ∀ p : PersistUpdate,
        (processListingSeller s (.ok items) send now).persisted = some p →
        l.itemId ∈ p.knownListings) := by
  unfold processListingSeller
  constructor
  · by_cases h : newListingsOf s.knownListings items = [] <;> simp [h]
  · intro l hl p hp
    by_cases h : newListingsOf s.knownListings items = []
    · rw [h] at hl; cases hl
    · simp only [h, if_neg h, ite_false] at hp
      have hrec := Option.some.inj hp
      rw [← hrec]
      exact (mem_updatedKnownOf _ _ _).mpr
        (Or.inr (List.mem_map.mpr ⟨l, hl, rfl⟩))

/-- Witness for the amended C2 at a concrete input. -/
theorem claim_C2_notify_failure_recorded_witness :
    (processListingSeller ⟨"s1", ["111"], none⟩ (.ok [⟨"222"⟩])
        (fun _ => false) 100).persisted
      = (processListingSeller ⟨"s1", ["111"], none⟩ (.ok [⟨"222"⟩])
        (fun _ => true) 100).persisted ∧
    "222" ∈ (["111", "222"] : List String) :=
  ⟨(claim_C2_notify_failure_recorded ⟨"s1", ["111"], none⟩ [⟨"222"⟩]
      (fun _ => false) (fun _ => true) 100).1,
   (claim_C2_notify_failure_recorded ⟨"s1", ["111"], none⟩ [⟨"222"⟩]
      (fun _ => false) (fun _ => true) 100).2 ⟨"222"⟩ (by decide)
      ⟨"s1", ["111", "222"], 100⟩ (by rfl)⟩

/-- C4 counterexample: the crawl succeeds (`.ok`) but every crawled item is
already known, so nothing is persisted and `lastCheckedListings` is not
updated — contradicting "persists ... whenever the crawl succeeded,
including ... zero new items". -/
theorem claim_C4_counterexample :
    processListingSeller ⟨"s1", ["111"], some 5⟩ (.ok [⟨"111"⟩])
        (fun _ => true) 100 = { sent := [], persisted := none } := by
  rfl

/-- C4 amended: after a successful crawl the Orchestrator persists the
updated `knownItemIds` and sets `lastCheckedListings` to the cycle's
timestamp exactly when the crawl produced at least one new item; with zero
new items nothing is persisted. -/
theorem claim_C4_persist_only_new (s : Seller) (items : List Listing)
    (send : Listing → Bool) (now : Nat) :
    (newListingsOf s.knownListings items = [] →
      (processListingSeller s (.ok items) send now).persisted = none) ∧
    (newListingsOf s.knownListings items ≠ [] →
      (processListingSeller s (.ok items) send now).persisted =
        some ⟨s.ssn, updatedKnownOf s.knownListings (newListingsOf s.knownListings items),
              now⟩) := by
  unfold processListingSeller
  constructor
  · intro h; simp [h]
  · intro h; simp [h]

/-- Witness for the amended C4 at a concrete input. -/
theorem claim_C4_persist_only_new_witness :
    (processListingSeller ⟨"s1", ["111"], some 5⟩ (.ok [⟨"222"⟩])
        (fun _ => true) 100).persisted =
      some ⟨"s1", updatedKnownOf ["111"] (newListingsOf ["111"] [⟨"222"⟩]), 100⟩ :=
  (claim_C4_persist_only_new ⟨"s1", ["111"], some 5⟩ [⟨"222"⟩]
    (fun _ => true) 100).2 (by decide)

/-- Helper: `retryOperation` with the crawl defaults throws the last error
after exactly 3 attempts with the two fixed 5-second delays in between, when
every attempt fails. -/
lemma retryOp3_all_err {α : Type} (fn : Nat → Attempt α) (e1 e2 e3 : String)
    (h1 : fn 1 = .err e1) (h2 : fn 2 = .err e2) (h3 : fn 3 = .err e3) :
    retryOperation fn 3 5000
      = { result := .error e3, calls := 3, delays := [5000, 5000] } := by
  simp [retryOperation, retryGo, h1, h2, h3]

/-- Helper: with the crawl defaults, at most 3 attempts are ever made, and
every inter-attempt delay is exactly 5000 ms. -/
lemma retryOp3_bounds {α : Type} (fn : Nat → Attempt α) :
    (retryOperation fn 3 5000).calls ≤ 3 ∧
      ∀ d ∈ (retryOperation fn 3 5000).delays, d = 5000 := by
  cases hf1 : fn 1 <;> cases hf2 : fn 2 <;> cases hf3 : fn 3 <;>
    simp [retryOperation, retryGo, hf1, hf2, hf3]

/-- C6: a crawl is attempted at most 3 times with a fixed 5 s delay between
attempts; when every attempt of the first seller's crawl fails, the crawler
ends in an error after exactly 3 attempts and that seller contributes no
items, no sends and no persisted update, while the cycle still processes the
second seller exactly as it would on its own. -/
theorem claim_C6_crawl_failure_isolated (s1 s2 : Seller)
    (attempts : String → Nat → Attempt (List Listing))
    (send : Listing → Bool) (now : Nat)
    (hfail : ∀ k, ∃ e, attempts s1.ssn k = .err e) :
    (∃ e, (crawlSeller attempts s1).result = .error e) ∧
    (crawlSeller attempts s1).calls = 3 ∧
    (crawlSeller attempts s1).delays = [5000, 5000] ∧
    runListingsCycle [s1, s2] attempts send now
      = { sent := [], persisted := none } :: runListingsCycle [s2] attempts send now ∧
    (∀ fn : Nat → Attempt (List Listing),
      (retryOperation fn 3 5000).calls ≤ 3 ∧
        ∀ d ∈ (retryOperation fn 3 5000).delays, d = 5000) := by
  obtain ⟨e1, h1⟩ := hfail 1
  obtain ⟨e2, h2⟩ := hfail 2
  obtain ⟨e3, h3⟩ := hfail 3
  have hres : crawlSeller attempts s1
      = { result := .error e3, calls := 3, delays := [5000, 5000] } :=
    retryOp3_all_err _ e1 e2 e3 h1 h2 h3
  refine ⟨⟨e3, by rw [hres]⟩, by rw [hres], by rw [hres], ?_, fun fn => retryOp3_bounds fn⟩
  unfold runListingsCycle
  simp only [List.map_cons, List.map_nil, List.cons.injEq, and_true]
  rw [hres]
  rfl

/-- Witness for C6 at a concrete input: an attempts function that always
throws. -/
theorem claim_C6_crawl_failure_isolated_witness :
    (crawlSeller (fun _ k => Attempt.err ("fail" ++ toString k)) ⟨"s1", [], none⟩).calls
      = 3 :=
  (claim_C6_crawl_failure_isolated ⟨"s1", [], none⟩ ⟨"s2", [], none⟩
    (fun _ k => Attempt.err ("fail" ++ toString k)) (fun _ => true) 0
    (fun k => ⟨"fail" ++ toString k, rfl⟩)).2.1

/-- In-window classification of the last collected item of a page, in
original page order (false for a page with no collected items). -/
def lastInWindow (parseDate : String → DateParse) (now : Int)
    (items : List SoldItem) : Bool :=
  match items.getLast? with
  | some it => soldWithinTwoDays parseDate now it.soldDate
  | none => false

/-- Helper: `lastInWindow` ignores all but the last item. -/
lemma lastInWindow_cons_cons (p : String → DateParse) (n : Int)
    (it r : SoldItem) (rs : List SoldItem) :
    lastInWindow p n (it :: r :: rs) = lastInWindow p n (r :: rs) := by
  unfold lastInWindow
  rw [List.getLast?_cons_cons]

/-- Helper: the loop's `lastItemInRange` flag is the in-window
classification of the page's last collected item. -/
lemma processPage_snd (p : String → DateParse) (n : Int) (items : List SoldItem) :
    (processPage p n items).2 = lastInWindow p n items := by
  induction items with
  | nil => rfl
  | cons it rest ih =>
    cases rest with
    | nil =>
      by_cases h : soldWithinTwoDays p n it.soldDate <;>
        simp [processPage, lastInWindow, h]
    | cons r rs =>
      rw [lastInWindow_cons_cons]
      by_cases h : soldWithinTwoDays p n it.soldDate <;>
        simp [processPage, h, ih]

/-- Helper: the items a page contributes are exactly its in-window collected
items, in page order, with cleaned links. -/
lemma processPage_fst (p : String → DateParse) (n : Int) (items : List SoldItem) :
    (processPage p n items).1
      = (items.filter (fun it => soldWithinTwoDays p n it.soldDate)).map cleanItem := by
  induction items with
  | nil => rfl
  | cons it rest ih =>
    cases rest with
    | nil =>
      by_cases h : soldWithinTwoDays p n it.soldDate <;>
        simp [processPage, h]
    | cons r rs =>
      by_cases h : soldWithinTwoDays p n it.soldDate <;>
        simp [processPage, h, ih]

/-- C3: after processing a page, the crawler fetches the next page exactly
when the last collected item of the current page (in original page order)
is classified in-window — when it is not, the crawl returns the items so
far and fetches nothing more, whatever next pages exist; and when the
next-page control is absent or fetching it fails, the crawl stops without
error with the partial result as the complete result. -/
theorem claim_C3_pagination_stop (extractId : String → Option String)
    (parseDate : String → DateParse) (now : Int) (ssn store : String)
    (cur : List RawCard) (nexts : List NextOutcome) :
    (lastInWindow parseDate now (collectPage extractId ssn store cur) = false →
      crawlSoldGo extractId parseDate now ssn store cur nexts
        = ((processPage parseDate now (collectPage extractId ssn store cur)).1, 0)) ∧
    (∀ cards rest, nexts = NextOutcome.available cards :: rest →
      lastInWindow parseDate now (collectPage extractId ssn store cur) = true →
      crawlSoldGo extractId parseDate now ssn store cur nexts
        = ((processPage parseDate now (collectPage extractId ssn store cur)).1
            ++ (crawlSoldGo extractId parseDate now ssn store cards rest).1,
           (crawlSoldGo extractId parseDate now ssn store cards rest).2 + 1)) ∧
    ((nexts = [] ∨ nexts.head? = some NextOutcome.absent ∨
        (∃ m, nexts.head? = some (NextOutcome.failed m))) →
      lastInWindow parseDate now (collectPage extractId ssn store cur) = true →
      crawlSoldGo extractId parseDate now ssn store cur nexts
        = ((processPage parseDate now (collectPage extractId ssn store cur)).1, 0)) := by
  refine ⟨?_, ?_, ?_⟩
  · intro hlast
    rw [crawlSoldGo.eq_def]
    simp only [(processPage_snd parseDate now _).trans hlast]
    simp
  · intro cards rest hn hlast
    subst hn
    rw [crawlSoldGo.eq_def]
    simp only [(processPage_snd parseDate now _).trans hlast]
    simp
  · intro hend hlast
    have hcond := (processPage_snd parseDate now
      (collectPage extractId ssn store cur)).trans hlast
    rcases hend with h | h | ⟨m, h⟩
    · subst h
      rw [crawlSoldGo.eq_def]
      simp only [hcond]
      simp
    · cases nexts with
      | nil => rw [crawlSoldGo.eq_def]; simp only [hcond]; simp
      | cons x xs =>
        simp only [List.head?, Option.some.injEq] at h
        subst h
        rw [crawlSoldGo.eq_def]
        simp only [hcond]
        simp
    · cases nexts with
      | nil => rw [crawlSoldGo.eq_def]; simp only [hcond]; simp
      | cons x xs =>
        simp only [List.head?, Option.some.injEq] at h
        subst h
        rw [crawlSoldGo.eq_def]
        simp only [hcond]
        simp

/-- Witness for C3 at a concrete input: an empty first page stops the crawl
even though a next page control is present. -/
theorem claim_C3_pagination_stop_witness :
    crawlSoldGo (fun _ => none) (fun _ => DateParse.noMatch) 0 "u" "s" []
        [NextOutcome.available []] = ([], 0) :=
  (claim_C3_pagination_stop (fun _ => none) (fun _ => DateParse.noMatch) 0 "u" "s" []
    [NextOutcome.available []]).1 (by rfl)

/-- Helper: inverting the collection phase — a collected item keeps the
card's sold-date text, which necessarily is nonempty and mentions
"Sold". -/
lemma collectCard_soldDate {extractId : String → Option String} {ssn store : String}
    {c : RawCard} {it : SoldItem} (h : collectCard extractId ssn store c = some it) :
    it.soldDate = c.soldDateText ∧ containsSub c.soldDateText "Sold" = true ∧
      c.soldDateText ≠ "" := by
  unfold collectCard at h
  by_cases hg : (c.soldDateText = "" || !(containsSub c.soldDateText "Sold")) = true
  · rw [if_pos hg] at h
    cases h
  · rw [if_neg hg] at h
    simp only [Bool.or_eq_true, Bool.not_eq_true', decide_eq_true_eq] at hg
    push_neg at hg
    rcases hg with ⟨hne, hcontains⟩
    cases hl : c.link with
    | none => rw [hl] at h; cases h
    | some rawLink =>
      rw [hl] at h
      dsimp only at h
      cases he : extractId (ebayAbs rawLink) with
      | none => rw [he] at h; cases h
      | some id =>
        rw [he] at h
        dsimp only at h
        by_cases ht : c.title ≠ "" ∧
            (containsSub c.cardText.toLower "sold" || containsSub c.cardText.toLower "ended") = true
        · rw [if_pos ht] at h
          have := Option.some.inj h
          refine ⟨?_, ?_, hne⟩
          · rw [← this]
          · exact eq_true_of_ne_false hcontains
        · rw [if_neg ht] at h
          cases h

/-- C10: a card whose sold-date text is empty or lacks the marker word
"Sold" is excluded from the page's item collection entirely, so every item
that reaches the in-window classification carries a nonempty sold-date text
containing "Sold". -/
theorem claim_C10_marker_filter (extractId : String → Option String) (ssn store : String) :
    (∀ c : RawCard,
      c.soldDateText = "" ∨ containsSub c.soldDateText "Sold" = false →
      collectCard extractId ssn store c = none) ∧
    (∀ (cards : List RawCard) (it : SoldItem),
      it ∈ collectPage extractId ssn store cards →
      containsSub it.soldDate "Sold" = true ∧ it.soldDate ≠ "") := by
  constructor
  · intro c hc
    unfold collectCard
    rcases hc with h | h
    · rw [if_pos]
      simp [h]
    · rw [if_pos]
      simp [h]
  · intro cards it hmem
    obtain ⟨c, _, hc⟩ := List.mem_filterMap.mp hmem
    obtain ⟨hdate, hcontains, hne⟩ := collectCard_soldDate hc
    rw [hdate]
    exact ⟨hcontains, hne⟩

/-- Witness for C10 at a concrete input: a card with an empty sold-date
element is dropped during collection. -/
theorem claim_C10_marker_filter_witness :
    collectCard (fun _ => some "1") "u" "s"
      { title := "t", link := some "https://www.ebay.com/itm/1", price := "$1",
        imageUrl := none, soldDateText := "", cardText := "t sold" } = none :=
  (claim_C10_marker_filter (fun _ => some "1") "u" "s").1
    { title := "t", link := some "https://www.ebay.com/itm/1", price := "$1",
      imageUrl := none, soldDateText := "", cardText := "t sold" }
    (Or.inl rfl)

/-- Models the evaluation of
`soldDate.match(/Sold\s+([A-Za-z]+\s+\d+,\s+\d{4})/)` followed by
`new Date(match[1])` on the inputs below: on `"Sold Abc 99, 2025"` the
pattern matches (capture `"Abc 99, 2025"`), but `new Date("Abc 99, 2025")`
is an Invalid Date (unknown month name, day out of range), so the time
value is `NaN`; every other string used here contains no match. -/
def dateParseProbe : String → DateParse :=
  fun s => if s = "Sold Abc 99, 2025" then .invalid else .noMatch

/-- C7 (code bug): an item whose sold-date text matches the date pattern
but does not parse into a valid absolute timestamp — `"Sold Abc 99, 2025"`
— is classified out-of-window (`NaN <= 2` is `false`) and silently dropped
from the page result, contradicting the claim and the source's own inline
comments ("If date parsing fails, include the item anyway"). -/
theorem claim_C7_unparsed_date_dropped :
    soldWithinTwoDays dateParseProbe 0 "Sold Abc 99, 2025" = false ∧
    processPage dateParseProbe 0
      [{ itemId := "1", title := "t", link := "L", price := "$1",
         sellerUsername := "u", storeName := "s", imageUrl := none,
         soldDate := "Sold Abc 99, 2025" }] = ([], false) ∧
    soldWithinTwoDays dateParseProbe 0 "Sold in the past" = true := by
  refine ⟨?_, ?_, ?_⟩ <;> decide

/-- C9 counterexample: a state in which the periodic cycle and the
on-change-triggered cycle are both mid-run is reachable from process start
— the triggered invocation starts while the periodic one is suspended at an
`await`, because the only entry guard (`if (!monitoringActive) return`)
does not consult whether another cycle is in progress. -/
theorem claim_C9_counterexample :
    ∃ s : SchedState, SchedReachable s ∧ Overlap s := by
  refine ⟨{ active := true, periodicRun := 1, triggeredRun := 1 }, ?_, rfl, rfl⟩
  exact SchedReachable.step
    (SchedReachable.step SchedReachable.init
      (SchedStep.startPeriodic schedInit rfl rfl))
    (SchedStep.startTriggered { schedInit with periodicRun := 1 } rfl rfl)

/-- C9 amended: the code performs no serialization of monitoring cycles —
the on-change-triggered run starts whenever the always-true
`monitoringActive` flag permits, regardless of a periodic run being in
progress (no transition ever clears the flag), so overlapping cycles are
reachable. -/
theorem claim_C9_no_serialization :
    (∀ s : SchedState, s.active = true → s.triggeredRun = 0 →
      SchedStep s { s with triggeredRun := 1 }) ∧
    (∀ s s' : SchedState, SchedStep s s' → s'.active = s.active) ∧
    schedInit.active = true := by
  refine ⟨fun s h1 h2 => SchedStep.startTriggered s h1 h2, ?_, rfl⟩
  intro s s' hstep
  cases hstep <;> rfl

/-- Witness for the amended C9 at a concrete input: from a state where the
periodic run is mid-cycle, the triggered run may start at once. -/
theorem claim_C9_no_serialization_witness :
    SchedStep { active := true, periodicRun := 1, triggeredRun := 0 }
      { active := true, periodicRun := 1, triggeredRun := 1 } :=
  claim_C9_no_serialization.1
    { active := true, periodicRun := 1, triggeredRun := 0 } rfl rfl


/-- Helper: `Map.set` then `get` at the same key. -/
lemma rlLookup_set_self (m : List (String × Nat)) (k : String) (v : Nat) :
    rlLookup (rlSet m k v) k = some v := by
  induction m with
  | nil => simp [rlSet, rlLookup]
  | cons p t ih =>
    by_cases h : p.1 = k <;> simp [rlSet, rlLookup, h, ih]

/-- Helper: `Map.set` leaves other keys' entries unchanged. -/
lemma rlLookup_set_other (m : List (String × Nat)) (k u : String) (v : Nat)
    (h : u ≠ k) : rlLookup (rlSet m k v) u = rlLookup m u := by
  induction m with
  | nil => simp [rlSet, rlLookup, Ne.symm h]
  | cons p t ih =>
    by_cases hp : p.1 = k
    · simp [rlSet, rlLookup, hp, Ne.symm h]
    · simp [rlSet, rlLookup, hp, ih]

/-- Helper: `Map.delete` then `get` at the same key. -/
lemma rlLookup_erase_self (m : List (String × Nat)) (k : String) :
    rlLookup (rlErase m k) k = none := by
  induction m with
  | nil => simp [rlErase, rlLookup]
  | cons p t ih =>
    by_cases h : p.1 = k <;> simp [rlErase, rlLookup, h, ih]

/-- Helper: `Map.delete` leaves other keys' entries unchanged. -/
lemma rlLookup_erase_other (m : List (String × Nat)) (k u : String)
    (h : u ≠ k) : rlLookup (rlErase m k) u = rlLookup m u := by
  induction m with
  | nil => simp [rlErase, rlLookup]
  | cons p t ih =>
    by_cases hp : p.1 = k
    · simp [rlErase, rlLookup, hp, ih, Ne.symm h]
    · simp [rlErase, rlLookup, hp, ih]

/-- Helper: the pre-send wait does not touch the rate-limit map. -/
lemma preWait_rl (url : String) (st : DispatchSt) : (preWait url st).rl = st.rl := by
  unfold preWait
  cases rlLookup st.rl url with
  | none => rfl
  | some r => dsimp only; split <;> rfl

/-- Helper: the pre-send wait makes no send call. -/
lemma preWait_calls (url : String) (st : DispatchSt) :
    (preWait url st).calls = st.calls := by
  unfold preWait
  cases rlLookup st.rl url with
  | none => rfl
  | some r => dsimp only; split <;> rfl

/-- Helper: the pre-send wait records no reset. -/
lemma preWait_resets (url : String) (st : DispatchSt) :
    (preWait url st).resets = st.resets := by
  unfold preWait
  cases rlLookup st.rl url with
  | none => rfl
  | some r => dsimp only; split <;> rfl

/-- Helper: the pre-send wait only appends to the sleep log. -/
lemma preWait_sleeps (url : String) (st : DispatchSt) :
    ∃ l, (preWait url st).sleeps = st.sleeps ++ l := by
  unfold preWait
  cases rlLookup st.rl url with
  | none => exact ⟨[], by simp⟩
  | some r =>
    dsimp only
    split
    · exact ⟨[r - st.now], rfl⟩
    · exact ⟨[], by simp⟩


/-- Helper: a whole dispatch run never changes the rate-limit
entry of any destination other than the one it sends to. -/
lemma sendGo_rl_frame (url : String) (script : Nat → SendOutcome) (mx : Nat)
    (u : String) (hu : u ≠ url) :
    ∀ (fuel attempt : Nat) (st : DispatchSt),
      rlLookup (sendGo url script mx attempt fuel st).2.rl u = rlLookup st.rl u := by
  intro fuel
  induction fuel with
  | zero => intro attempt st; rfl
  | succ f ih =>
    intro attempt st
    cases hs : script attempt with
    | success =>
      simp [sendGo, hs, rlLookup_erase_other _ _ _ hu, preWait_rl]
    | error resp =>
      cases resp with
      | none => simp [sendGo, hs, preWait_rl]
      | some r =>
        by_cases h429 : r.status = 429
        · by_cases hlt : attempt < mx - 1
          · simp [sendGo, hs, h429, hlt, ih, recordSleep,
              rlLookup_set_other _ _ _ _ hu, preWait_rl]
          · simp [sendGo, hs, h429, hlt,
              rlLookup_set_other _ _ _ _ hu, preWait_rl]
        · by_cases hc : attempt < mx - 1 ∧ 500 ≤ r.status
          · simp [sendGo, hs, h429, hc, ih, recordSleep, preWait_rl]
          · simp [sendGo, hs, h429, hc, preWait_rl]

/-- Helper: every reset recorded during a run is keyed by the destination
the run sends to. -/
lemma sendGo_resets_keys (url : String) (script : Nat → SendOutcome) (mx : Nat) :
    ∀ (fuel attempt : Nat) (st : DispatchSt) (q : String × Nat),
      q ∈ (sendGo url script mx attempt fuel st).2.resets →
      q ∈ st.resets ∨ q.1 = url := by
  intro fuel
  induction fuel with
  | zero => intro attempt st q hq; exact Or.inl hq
  | succ f ih =>
    intro attempt st q hq
    cases hs : script attempt with
    | success =>
      simp [sendGo, hs, preWait_resets] at hq
      exact Or.inl hq
    | error resp =>
      cases resp with
      | none =>
        simp [sendGo, hs, preWait_resets] at hq
        exact Or.inl hq
      | some r =>
        by_cases h429 : r.status = 429
        · by_cases hlt : attempt < mx - 1
          · simp only [sendGo, hs, h429, hlt, ite_true, if_true] at hq
            rcases ih _ _ _ hq with h | h
            · simp [recordSleep, preWait_resets] at h
              rcases h with h | h
              · exact Or.inl h
              · right
                rw [h]
            · exact Or.inr h
          · simp [sendGo, hs, h429, hlt, preWait_resets] at hq
            rcases hq with h | h
            · exact Or.inl h
            · right
              rw [h]
        · by_cases hc : attempt < mx - 1 ∧ 500 ≤ r.status
          · simp only [sendGo, hs, h429, hc, ite_true, if_true, ite_false, if_false, and_self] at hq
            rcases ih _ _ _ hq with h | h
            · simp [recordSleep, preWait_resets] at h
              exact Or.inl h
            · exact Or.inr h
          · simp [sendGo, hs, h429, hc, preWait_resets] at hq
            exact Or.inl hq


/-- Helper: a run only appends to the sleep log. -/
lemma sendGo_sleeps_mono (url : String) (script : Nat → SendOutcome) (mx : Nat) :
    ∀ (fuel attempt : Nat) (st : DispatchSt),
      ∃ l, (sendGo url script mx attempt fuel st).2.sleeps = st.sleeps ++ l := by
  intro fuel
  induction fuel with
  | zero => intro attempt st; exact ⟨[], by simp [sendGo]⟩
  | succ f ih =>
    intro attempt st
    obtain ⟨l0, hl0⟩ := preWait_sleeps url st
    cases hs : script attempt with
    | success => exact ⟨l0, by simp [sendGo, hs, hl0]⟩
    | error resp =>
      cases resp with
      | none => exact ⟨l0, by simp [sendGo, hs, hl0]⟩
      | some r =>
        by_cases h429 : r.status = 429
        · by_cases hlt : attempt < mx - 1
          · obtain ⟨l1, hl1⟩ := ih (attempt + 1)
              (recordSleep (waitTimeFor (jsOr r.retryHeader r.retryBody) attempt)
                { rl := rlSet (preWait url st).rl url
                    ((preWait url st).now + waitTimeFor (jsOr r.retryHeader r.retryBody) attempt),
                  now := (preWait url st).now, sleeps := (preWait url st).sleeps,
                  resets := (preWait url st).resets ++
                    [(url, (preWait url st).now + waitTimeFor (jsOr r.retryHeader r.retryBody) attempt)],
                  calls := (preWait url st).calls + 1 })
            refine ⟨l0 ++ [waitTimeFor (jsOr r.retryHeader r.retryBody) attempt] ++ l1, ?_⟩
            simp only [sendGo, hs, h429, hlt, ite_true, if_true]
            rw [hl1]
            simp [recordSleep, hl0]
          · exact ⟨l0, by simp [sendGo, hs, h429, hlt, hl0]⟩
        · by_cases hc : attempt < mx - 1 ∧ 500 ≤ r.status
          · obtain ⟨l1, hl1⟩ := ih (attempt + 1)
              (recordSleep (backoff10 attempt)
                { rl := (preWait url st).rl, now := (preWait url st).now,
                  sleeps := (preWait url st).sleeps, resets := (preWait url st).resets,
                  calls := (preWait url st).calls + 1 })
            refine ⟨l0 ++ [backoff10 attempt] ++ l1, ?_⟩
            simp only [sendGo, hs, h429, hc, ite_true, if_true, ite_false, if_false, and_self]
            rw [hl1]
            simp [recordSleep, hl0]
          · exact ⟨l0, by simp [sendGo, hs, h429, hc, hl0]⟩

/-- Helper: a run only appends to the reset log. -/
lemma sendGo_resets_mono (url : String) (script : Nat → SendOutcome) (mx : Nat) :
    ∀ (fuel attempt : Nat) (st : DispatchSt),
      ∃ l, (sendGo url script mx attempt fuel st).2.resets = st.resets ++ l := by
  intro fuel
  induction fuel with
  | zero => intro attempt st; exact ⟨[], by simp [sendGo]⟩
  | succ f ih =>
    intro attempt st
    cases hs : script attempt with
    | success => exact ⟨[], by simp [sendGo, hs, preWait_resets]⟩
    | error resp =>
      cases resp with
      | none => exact ⟨[], by simp [sendGo, hs, preWait_resets]⟩
      | some r =>
        by_cases h429 : r.status = 429
        · by_cases hlt : attempt < mx - 1
          · obtain ⟨l1, hl1⟩ := ih (attempt + 1)
              (recordSleep (waitTimeFor (jsOr r.retryHeader r.retryBody) attempt)
                { rl := rlSet (preWait url st).rl url
                    ((preWait url st).now + waitTimeFor (jsOr r.retryHeader r.retryBody) attempt),
                  now := (preWait url st).now, sleeps := (preWait url st).sleeps,
                  resets := (preWait url st).resets ++
                    [(url, (preWait url st).now + waitTimeFor (jsOr r.retryHeader r.retryBody) attempt)],
                  calls := (preWait url st).calls + 1 })
            refine ⟨(url, (preWait url st).now + waitTimeFor (jsOr r.retryHeader r.retryBody) attempt) :: l1, ?_⟩
            simp only [sendGo, hs, h429, hlt, ite_true, if_true]
            rw [hl1]
            simp [recordSleep, preWait_resets]
          · exact ⟨[(url, (preWait url st).now + waitTimeFor (jsOr r.retryHeader r.retryBody) attempt)],
              by simp [sendGo, hs, h429, hlt, preWait_resets]⟩
        · by_cases hc : attempt < mx - 1 ∧ 500 ≤ r.status
          · obtain ⟨l1, hl1⟩ := ih (attempt + 1)
              (recordSleep (backoff10 attempt)
                { rl := (preWait url st).rl, now := (preWait url st).now,
                  sleeps := (preWait url st).sleeps, resets := (preWait url st).resets,
                  calls := (preWait url st).calls + 1 })
            refine ⟨l1, ?_⟩
            simp only [sendGo, hs, h429, hc, ite_true, if_true, ite_false, if_false, and_self]
            rw [hl1]
            simp [recordSleep, preWait_resets]
          · exact ⟨[], by simp [sendGo, hs, h429, hc, preWait_resets]⟩

/-- Helper: a run makes at most as many send calls as it has loop
iterations left. -/
lemma sendGo_calls_le (url : String) (script : Nat → SendOutcome) (mx : Nat) :
    ∀ (fuel attempt : Nat) (st : DispatchSt),
      (sendGo url script mx attempt fuel st).2.calls ≤ st.calls + fuel := by
  intro fuel
  induction fuel with
  | zero => intro attempt st; simp [sendGo]
  | succ f ih =>
    intro attempt st
    cases hs : script attempt with
    | success => simp [sendGo, hs, preWait_calls]
    | error resp =>
      cases resp with
      | none => simp [sendGo, hs, preWait_calls]
      | some r =>
        by_cases h429 : r.status = 429
        · by_cases hlt : attempt < mx - 1
          · simp only [sendGo, hs, h429, hlt, ite_true, if_true]
            refine le_trans (ih _ _) ?_
            simp [recordSleep, preWait_calls]
            omega
          · simp [sendGo, hs, h429, hlt, preWait_calls]
        · by_cases hc : attempt < mx - 1 ∧ 500 ≤ r.status
          · simp only [sendGo, hs, h429, hc, ite_true, if_true, ite_false, if_false, and_self]
            refine le_trans (ih _ _) ?_
            simp [recordSleep, preWait_calls]
            omega
          · simp [sendGo, hs, h429, hc, preWait_calls]


/-- Two dispatcher states that agree on everything a send to `url` can
observe: the clock, the logs, and the rate-limit entry of `url` itself. -/
def rlAgree (url : String) (st1 st2 : DispatchSt) : Prop :=
  st1.now = st2.now ∧ st1.sleeps = st2.sleeps ∧ st1.resets = st2.resets ∧
    st1.calls = st2.calls ∧ rlLookup st1.rl url = rlLookup st2.rl url

/-- Helper: the pre-send wait preserves `rlAgree`. -/
lemma preWait_agree (url : String) (st1 st2 : DispatchSt)
    (h : rlAgree url st1 st2) : rlAgree url (preWait url st1) (preWait url st2) := by
  obtain ⟨hnow, hsleeps, hresets, hcalls, hrl⟩ := h
  unfold preWait
  cases hL : rlLookup st2.rl url with
  | none =>
    rw [hrl, hL]
    exact ⟨hnow, hsleeps, hresets, hcalls, hrl⟩
  | some resetAt =>
    rw [hrl, hL]
    dsimp only
    rw [hnow]
    by_cases hw : st2.now < resetAt
    · rw [if_pos hw, if_pos hw]
      exact ⟨by simp [recordSleep, hnow], by simp [recordSleep, hsleeps],
        by simp [recordSleep, hresets], by simp [recordSleep, hcalls],
        by simp [recordSleep, hrl]⟩
    · rw [if_neg hw, if_neg hw]
      exact ⟨hnow, hsleeps, hresets, hcalls, hrl⟩

/-- Helper (noninterference): a send to `url` behaves identically in any
two states that agree on `url`-observable data; rate-limit entries of
other destinations are invisible to it. -/
lemma sendGo_agree (url : String) (script : Nat → SendOutcome) (mx : Nat) :
    ∀ (fuel attempt : Nat) (st1 st2 : DispatchSt), rlAgree url st1 st2 →
      (sendGo url script mx attempt fuel st1).1 = (sendGo url script mx attempt fuel st2).1 ∧
      rlAgree url (sendGo url script mx attempt fuel st1).2 (sendGo url script mx attempt fuel st2).2 := by
  intro fuel
  induction fuel with
  | zero => intro attempt st1 st2 h; exact ⟨rfl, h⟩
  | succ f ih =>
    intro attempt st1 st2 h
    obtain ⟨hnow, hsleeps, hresets, hcalls, hrl⟩ := preWait_agree url st1 st2 h
    cases hs : script attempt with
    | success =>
      refine ⟨by simp [sendGo, hs], ?_⟩
      simp only [sendGo, hs]
      exact ⟨hnow, hsleeps, hresets, by simp [hcalls],
        by simp [rlLookup_erase_self]⟩
    | error resp =>
      cases resp with
      | none =>
        refine ⟨by simp [sendGo, hs], ?_⟩
        simp only [sendGo, hs]
        exact ⟨hnow, hsleeps, hresets, by simp [hcalls], hrl⟩
      | some r =>
        by_cases h429 : r.status = 429
        · by_cases hlt : attempt < mx - 1
          · simp only [sendGo, hs, h429, hlt, ite_true, if_true]
            apply ih
            refine ⟨?_, ?_, ?_, ?_, ?_⟩ <;>
              simp [recordSleep, hnow, hsleeps, hresets, hcalls, rlLookup_set_self]
          · simp only [sendGo, hs, h429, hlt, ite_true, if_true, ite_false, if_false]
            refine ⟨by simp, ?_, ?_, ?_, ?_, ?_⟩ <;>
              simp [hnow, hsleeps, hresets, hcalls, rlLookup_set_self]
        · by_cases hc : attempt < mx - 1 ∧ 500 ≤ r.status
          · simp only [sendGo, hs, h429, hc, ite_true, if_true, ite_false, if_false, and_self]
            apply ih
            refine ⟨?_, ?_, ?_, ?_, ?_⟩ <;>
              simp [recordSleep, hnow, hsleeps, hresets, hcalls, hrl]
          · simp only [sendGo, hs, h429, hc, ite_true, if_true, ite_false, if_false]
            exact ⟨by simp, hnow, hsleeps, hresets, by simp [hcalls], hrl⟩


/-- Helper: with no rate-limit entry recorded for the destination, the
pre-send check is a no-op. -/
lemma preWait_id (url : String) (st : DispatchSt)
    (h : rlLookup st.rl url = none) : preWait url st = st := by
  unfold preWait
  rw [h]

/-- Helper: a number directive above 1000 is taken verbatim (milliseconds). -/
lemma waitTimeFor_num_big (n a : Nat) (h : 1000 < n) :
    waitTimeFor (some (.num n)) a = n := by
  have hn : n ≠ 0 := by omega
  simp [waitTimeFor, jsTruthy, hn, h]

/-- Helper: a nonzero number directive of at most 1000 is multiplied by 1000
(seconds interpretation). -/
lemma waitTimeFor_num_small (n a : Nat) (h0 : 0 < n) (h : n ≤ 1000) :
    waitTimeFor (some (.num n)) a = n * 1000 := by
  have hn : n ≠ 0 := by omega
  have hle : ¬ 1000 < n := by omega
  simp [waitTimeFor, jsTruthy, hn, hle]

/-- Helper: a string directive is always multiplied by 1000, whatever its
numeric value, because the `typeof` test fails for it. -/
lemma waitTimeFor_str (n a : Nat) :
    waitTimeFor (some (.str n)) a = n * 1000 := by
  simp [waitTimeFor, jsTruthy]

/-- Helper: with no directive the wait is the capped exponential backoff. -/
lemma waitTimeFor_none (a : Nat) :
    waitTimeFor none a = min 30000 (2 ^ a * 1000) := by
  simp [waitTimeFor, backoff30]

/-- Helper: one loop iteration hitting a 429 with attempts remaining:
the reset is recorded for this destination at `now + waitTime` and the loop
sleeps `waitTime` before the next attempt. -/
lemma sendGo_first429_step (url : String) (script : Nat → SendOutcome)
    (mx : Nat) (hdr body : Option JsVal) (fuel : Nat) (st : DispatchSt)
    (hs : script 0 = .error (some { status := 429, retryHeader := hdr, retryBody := body }))
    (hclean : rlLookup st.rl url = none)
    (hlt : 0 < mx - 1) :
    sendGo url script mx 0 (fuel + 1) st
      = sendGo url script mx 1 fuel
          (recordSleep (waitTimeFor (jsOr hdr body) 0)
            { rl := rlSet st.rl url (st.now + waitTimeFor (jsOr hdr body) 0),
              now := st.now, sleeps := st.sleeps,
              resets := st.resets ++ [(url, st.now + waitTimeFor (jsOr hdr body) 0)],
              calls := st.calls + 1 }) := by
  simp only [sendGo, hs, hlt, ite_true, if_true, preWait_id url st hclean]

/-- Helper: a default (5-attempt) run whose first attempt hits a 429
records `resetAt = now + waitTime` for the destination as its first reset
and sleeps exactly `waitTime` before anything else. -/
lemma sendWithRateLimit_first429 (url : String) (script : Nat → SendOutcome)
    (hdr body : Option JsVal) (st : DispatchSt)
    (hs : script 0 = .error (some { status := 429, retryHeader := hdr, retryBody := body }))
    (hclean : rlLookup st.rl url = none) :
    ∃ l l', (sendWithRateLimit url script 5 st).2.resets
        = st.resets ++ (url, st.now + waitTimeFor (jsOr hdr body) 0) :: l ∧
      (sendWithRateLimit url script 5 st).2.sleeps
        = st.sleeps ++ waitTimeFor (jsOr hdr body) 0 :: l' := by
  have hstep := sendGo_first429_step url script 5 hdr body 4 st hs hclean (by omega)
  obtain ⟨l1, hl1⟩ := sendGo_resets_mono url script 5 4 1
    (recordSleep (waitTimeFor (jsOr hdr body) 0)
      { rl := rlSet st.rl url (st.now + waitTimeFor (jsOr hdr body) 0),
        now := st.now, sleeps := st.sleeps,
        resets := st.resets ++ [(url, st.now + waitTimeFor (jsOr hdr body) 0)],
        calls := st.calls + 1 })
  obtain ⟨l2, hl2⟩ := sendGo_sleeps_mono url script 5 4 1
    (recordSleep (waitTimeFor (jsOr hdr body) 0)
      { rl := rlSet st.rl url (st.now + waitTimeFor (jsOr hdr body) 0),
        now := st.now, sleeps := st.sleeps,
        resets := st.resets ++ [(url, st.now + waitTimeFor (jsOr hdr body) 0)],
        calls := st.calls + 1 })
  refine ⟨l1, l2, ?_, ?_⟩
  · show (sendGo url script 5 0 5 st).2.resets = _
    rw [show (5 : Nat) = 4 + 1 from rfl, hstep, hl1]
    simp [recordSleep]
  · show (sendGo url script 5 0 5 st).2.sleeps = _
    rw [show (5 : Nat) = 4 + 1 from rfl, hstep, hl2]
    simp [recordSleep]


/-- C5 counterexample: a 429 whose retry directive is the header string
"3000" has numeric value above 1000, so the claim demands a 3000 ms
wait; the dispatcher instead sleeps 3000 * 1000 = 3000000 ms, because the
directive is not number-typed and the code falls into the
multiply-by-1000 arm. -/
theorem claim_C5_counterexample :
    (sendWithRateLimit "urlA"
      (fun k => if k = 0 then SendOutcome.error
          (some { status := 429, retryHeader := some (JsVal.str 3000), retryBody := none })
        else SendOutcome.success) 5
      { rl := [], now := 0, sleeps := [], resets := [], calls := 0 }).2.sleeps
      = [3000000] ∧ (3000000 : Nat) ≠ 3000 := by
  constructor
  · decide
  · decide

/-- C5 amended: the retry directive is taken verbatim as milliseconds only
when it is a JavaScript number exceeding 1000; a nonzero number of at most
1000 and any string directive are multiplied by 1000; an absent directive
falls back to the backoff capped at 30 s.  A 429 records
`resetAt = now + wait` keyed by the sending destination only, other
destinations' entries are never touched, and a wait recorded for a
different destination has no effect on this destination's sends. -/
theorem claim_C5_rate_limit_wait :
    (∀ n a : Nat, 1000 < n → waitTimeFor (some (JsVal.num n)) a = n) ∧
    (∀ n a : Nat, 0 < n → n ≤ 1000 → waitTimeFor (some (JsVal.num n)) a = n * 1000) ∧
    (∀ n a : Nat, waitTimeFor (some (JsVal.str n)) a = n * 1000) ∧
    (∀ a : Nat, waitTimeFor none a = min 30000 (2 ^ a * 1000)) ∧
    (∀ (url : String) (script : Nat → SendOutcome) (hdr body : Option JsVal) (st : DispatchSt),
      script 0 = SendOutcome.error (some { status := 429, retryHeader := hdr, retryBody := body }) →
      rlLookup st.rl url = none →
      ∃ l l', (sendWithRateLimit url script 5 st).2.resets
          = st.resets ++ (url, st.now + waitTimeFor (jsOr hdr body) 0) :: l ∧
        (sendWithRateLimit url script 5 st).2.sleeps
          = st.sleeps ++ waitTimeFor (jsOr hdr body) 0 :: l') ∧
    (∀ (url : String) (script : Nat → SendOutcome) (mx fuel attempt : Nat) (st : DispatchSt)
      (u : String), u ≠ url →
      rlLookup (sendGo url script mx attempt fuel st).2.rl u = rlLookup st.rl u) ∧
    (∀ (url : String) (script : Nat → SendOutcome) (mx fuel attempt : Nat) (st : DispatchSt)
      (q : String × Nat), q ∈ (sendGo url script mx attempt fuel st).2.resets →
      q ∈ st.resets ∨ q.1 = url) ∧
    (∀ (url : String) (script : Nat → SendOutcome) (mx n : Nat) (u : String) (v : Nat),
      u ≠ url →
      (sendWithRateLimit url script mx
          { rl := [(u, v)], now := n, sleeps := [], resets := [], calls := 0 }).1
        = (sendWithRateLimit url script mx
          { rl := [], now := n, sleeps := [], resets := [], calls := 0 }).1 ∧
      (sendWithRateLimit url script mx
          { rl := [(u, v)], now := n, sleeps := [], resets := [], calls := 0 }).2.sleeps
        = (sendWithRateLimit url script mx
          { rl := [], now := n, sleeps := [], resets := [], calls := 0 }).2.sleeps) := by
  refine ⟨waitTimeFor_num_big, waitTimeFor_num_small, waitTimeFor_str, waitTimeFor_none,
    sendWithRateLimit_first429, ?_, ?_, ?_⟩
  · intro url script mx fuel attempt st u hu
    exact sendGo_rl_frame url script mx u hu fuel attempt st
  · intro url script mx fuel attempt st q hq
    exact sendGo_resets_keys url script mx fuel attempt st q hq
  · intro url script mx n u v hu
    have hagree : rlAgree url
        { rl := [(u, v)], now := n, sleeps := [], resets := [], calls := 0 }
        { rl := [], now := n, sleeps := [], resets := [], calls := 0 } := by
      refine ⟨rfl, rfl, rfl, rfl, ?_⟩
      simp [rlLookup, hu]
    have h := sendGo_agree url script mx mx 0
      { rl := [(u, v)], now := n, sleeps := [], resets := [], calls := 0 }
      { rl := [], now := n, sleeps := [], resets := [], calls := 0 } hagree
    exact ⟨h.1, h.2.2.1⟩

/-- Witness for the amended C5 at concrete directives. -/
theorem claim_C5_rate_limit_wait_witness :
    waitTimeFor (some (JsVal.num 3000)) 0 = 3000 ∧
      waitTimeFor (some (JsVal.str 3000)) 0 = 3000000 :=
  ⟨claim_C5_rate_limit_wait.1 3000 0 (by decide),
   claim_C5_rate_limit_wait.2.2.1 3000 0⟩

/-- C8: the dispatch loop turns every error into a returned boolean (the
embedding is a total function), makes at most 5 send calls with the
default retry budget, returns `true` immediately on success, and returns
`false` immediately, without a retry, on any error that is neither a 429
nor a 5xx response, as well as on a 429 or 5xx at the final attempt. -/
theorem claim_C8_send_contract :
    (∀ (url : String) (script : Nat → SendOutcome) (st : DispatchSt),
      (sendWithRateLimit url script 5 st).2.calls ≤ st.calls + 5) ∧
    (∀ (url : String) (script : Nat → SendOutcome) (mx attempt fuel : Nat) (st : DispatchSt),
      script attempt = SendOutcome.success →
      (sendGo url script mx attempt (fuel + 1) st).1 = true ∧
      (sendGo url script mx attempt (fuel + 1) st).2.calls = st.calls + 1) ∧
    (∀ (url : String) (script : Nat → SendOutcome) (mx attempt fuel : Nat) (st : DispatchSt),
      script attempt = SendOutcome.error none →
      sendGo url script mx attempt (fuel + 1) st
        = (false, { preWait url st with calls := (preWait url st).calls + 1 })) ∧
    (∀ (url : String) (script : Nat → SendOutcome) (mx attempt fuel : Nat) (st : DispatchSt)
      (r : ErrResp), script attempt = SendOutcome.error (some r) →
      r.status ≠ 429 → r.status < 500 →
      sendGo url script mx attempt (fuel + 1) st
        = (false, { preWait url st with calls := (preWait url st).calls + 1 })) ∧
    (∀ (url : String) (script : Nat → SendOutcome) (mx attempt fuel : Nat) (st : DispatchSt)
      (r : ErrResp), script attempt = SendOutcome.error (some r) →
      500 ≤ r.status → ¬ attempt < mx - 1 →
      (sendGo url script mx attempt (fuel + 1) st).1 = false) ∧
    (∀ (url : String) (script : Nat → SendOutcome) (mx attempt fuel : Nat) (st : DispatchSt)
      (r : ErrResp), script attempt = SendOutcome.error (some r) →
      r.status = 429 → ¬ attempt < mx - 1 →
      (sendGo url script mx attempt (fuel + 1) st).1 = false) := by
  refine ⟨?_, ?_, ?_, ?_, ?_, ?_⟩
  · intro url script st
    exact sendGo_calls_le url script 5 5 0 st
  · intro url script mx attempt fuel st hs
    constructor
    · simp [sendGo, hs]
    · simp [sendGo, hs, preWait_calls]
  · intro url script mx attempt fuel st hs
    simp [sendGo, hs]
  · intro url script mx attempt fuel st r hs hne h5
    have hcond : ¬ (attempt < mx - 1 ∧ 500 ≤ r.status) := fun hh => by omega
    simp [sendGo, hs, hne, hcond]
  · intro url script mx attempt fuel st r hs h5 hlt
    have hcond : ¬ (attempt < mx - 1 ∧ 500 ≤ r.status) := fun hh => hlt hh.1
    by_cases h429 : r.status = 429
    · simp [sendGo, hs, h429, hlt]
    · simp [sendGo, hs, h429, hcond]
  · intro url script mx attempt fuel st r hs h429 hlt
    simp [sendGo, hs, h429, hlt]

/-- Witness for C8 at a concrete input. -/
theorem claim_C8_send_contract_witness :
    (sendGo "u" (fun _ => SendOutcome.success) 5 0 5
      { rl := [], now := 0, sleeps := [], resets := [], calls := 0 }).1 = true :=
  (claim_C8_send_contract.2.1 "u" (fun _ => SendOutcome.success) 5 0 4
    { rl := [], now := 0, sleeps := [], resets := [], calls := 0 } rfl).1

end EbayBot
